import Mathlib

/-!
Verification of the live paginated collection consumer pattern of the
sendbird-chat-sample-react-native repository.

The repository's screens (GroupChannelListScreen, GroupChannelScreen,
ConnectScreen, GroupChannelInviteScreen) consume SDK "collection" objects.
The reconciliation/pagination semantics of a Collection live in the external
SDK; where a claim depends on them they are modelled from the spec
(each such definition says so in its doc comment).  Everything the screens
themselves compute (render data, key extraction, the mark-as-read condition,
the dispose effect, the sign-in call) is embedded directly from the source.
-/

namespace LiveCollection

/-- An Item of a Collection: an opaque domain record identified by a stable
unique key (channel url for the channel list, reqId-or-messageId for the
message list).  `val` stands for the rest of the record. -/
structure Item where
  key : String
  val : Nat
deriving DecidableEq, Repr

/-- A single mutation delivered by the source: add, update, or delete. -/
inductive Mutation where
  | add (i : Item)
  | update (i : Item)
  | del (k : String)
deriving DecidableEq, Repr

/-- Whether some loaded item already carries the key `k`. -/
def hasKey (items : List Item) (k : String) : Bool :=
  items.any (fun x => x.key == k)

/-- Modelled from the spec: the Collection reconciliation step is implemented
inside the external chat SDK (the screens only register callbacks on it).
Spec section 4.1: "On each mutation batch, reconcile by key: an add inserts if
key absent, an update replaces in place, a delete removes". -/
def applyMutation (items : List Item) : Mutation → List Item
  | .add i => if hasKey items i.key then items else items ++ [i]
  | .update i => items.map (fun x => if x.key == i.key then i else x)
  | .del k => items.filter (fun x => x.key != k)

/-- Apply a mutation batch in order. -/
def applyBatch (items : List Item) (b : List Mutation) : List Item :=
  b.foldl applyMutation items

/-- Apply a sequence of mutation batches to an initially empty Collection. -/
def applyBatches (bs : List (List Mutation)) : List Item :=
  bs.foldl applyBatch []

/-- The key-indexed contents of the loaded item list (first match wins). -/
def toMap (items : List Item) (k : String) : Option Nat :=
  (items.find? (fun x => x.key == k)).map Item.val

/-- Written from the spec's words, for comparison with `applyMutation`:
the net effect of one mutation on a keyed set, as a function update. -/
def specApply (f : String → Option Nat) : Mutation → (String → Option Nat)
  | .add i => if (f i.key).isSome then f
              else fun k => if k = i.key then some i.val else f k
  | .update i => fun k => if k = i.key then (f k).map (fun _ => i.val) else f k
  | .del k0 => fun k => if k = k0 then none else f k

/-- Written from the spec's words: the net effect of a sequence of batches on
an initially empty keyed set. -/
def specNet (bs : List (List Mutation)) : String → Option Nat :=
  bs.foldl (fun f b => b.foldl specApply f) (fun _ => none)

lemma hasKey_iff_find? (items : List Item) (k : String) :
    hasKey items k = (items.find? (fun x => x.key == k)).isSome := by
  induction items with
  | nil => rfl
  | cons x xs ih =>
      by_cases h : x.key == k
      · simp [hasKey, List.find?, h]
      · simp only [hasKey, List.any_cons, h, Bool.false_or, List.find?] at *
        simpa [h] using ih

lemma keys_applyMutation_update (items : List Item) (i : Item) :
    (applyMutation items (.update i)).map Item.key = items.map Item.key := by
  simp only [applyMutation, List.map_map]
  apply List.map_congr_left
  intro x _
  by_cases h : x.key == i.key
  · have hk : x.key = i.key := by simpa using h
    simp [Function.comp, h, hk]
  · simp [Function.comp, h]

lemma nodup_applyMutation (items : List Item) (m : Mutation)
    (h : (items.map Item.key).Nodup) :
    ((applyMutation items m).map Item.key).Nodup := by
  cases m with
  | add i =>
      by_cases hk : hasKey items i.key
      · simpa [applyMutation, hk] using h
      · have habs : i.key ∉ items.map Item.key := by
          intro hmem
          rcases List.mem_map.mp hmem with ⟨x, hx, hxk⟩
          have : items.any (fun x => x.key == i.key) = true :=
            List.any_eq_true.mpr ⟨x, hx, by simp [hxk]⟩
          simp [hasKey, this] at hk
        rw [show applyMutation items (.add i) = items ++ [i] by
          simp [applyMutation, hk]]
        rw [List.map_append]
        exact List.Nodup.append h (List.nodup_singleton _)
          (by simpa [List.disjoint_singleton] using habs)
  | update i =>
      simpa [keys_applyMutation_update] using h
  | del k =>
      have hs : List.Sublist
          ((items.filter (fun x => x.key != k)).map Item.key)
          (items.map Item.key) :=
        List.Sublist.map _ (List.filter_sublist items)
      exact hs.nodup (by simpa [applyMutation] using h)

lemma toMap_applyMutation_add (items : List Item) (i : Item) :
    toMap (applyMutation items (.add i)) = specApply (toMap items) (.add i) := by
  funext k
  by_cases hk : hasKey items i.key
  · have hsome : (toMap items i.key).isSome := by
      rw [hasKey_iff_find?] at hk
      simpa [toMap, Option.isSome_map] using hk
    rw [show applyMutation items (.add i) = items by simp [applyMutation, hk]]
    rw [show specApply (toMap items) (.add i) = toMap items from
      if_pos hsome]
  · have hnone : items.find? (fun x => x.key == i.key) = none := by
      rw [hasKey_iff_find?] at hk
      exact Option.not_isSome_iff_eq_none.mp (by simp [hk])
    have hsome : ¬(toMap items i.key).isSome := by
      simp [toMap, hnone]
    rw [show applyMutation items (.add i) = items ++ [i] by
      simp [applyMutation, hk]]
    rw [show specApply (toMap items) (.add i) =
        (fun k => if k = i.key then some i.val else toMap items k) from
      if_neg hsome]
    by_cases hkk : k = i.key
    · subst hkk
      simp [toMap, List.find?_append, hnone]
    · have hik : ¬(i.key == k) := by
        simpa using fun h => hkk h.symm
      simp [toMap, List.find?_append, hik, hkk]

lemma toMap_applyMutation_update (items : List Item) (i : Item) :
    toMap (applyMutation items (.update i))
      = specApply (toMap items) (.update i) := by
  funext k
  induction items with
  | nil => by_cases hkk : k = i.key <;> simp [applyMutation, toMap, specApply, hkk]
  | cons x xs ih =>
      simp only [applyMutation, toMap, specApply] at ih ⊢
      simp only [List.map_cons, List.find?_cons]
      by_cases hx : (x.key == i.key) = true
      · have hxk : x.key = i.key := by simpa using hx
        rw [if_pos hx]
        by_cases hkk : k = i.key
        · subst hkk
          simp [hxk]
        · have h1 : (i.key == k) = false := by
            simpa using fun h => hkk h.symm
          have h2 : (x.key == k) = false := by
            rw [hxk]
            exact h1
          rw [h1, h2]
          simpa [hkk] using ih
      · rw [if_neg hx]
        by_cases hxk : (x.key == k) = true
        · have hkk : k ≠ i.key := by
            intro h
            subst h
            exact hx hxk
          rw [hxk]
          simp [hkk]
        · rw [Bool.of_not_eq_true hxk]
          exact ih

lemma toMap_applyMutation_del (items : List Item) (k0 : String) :
    toMap (applyMutation items (.del k0)) = specApply (toMap items) (.del k0) := by
  funext k
  by_cases hkk : k = k0
  · subst hkk
    have hfind : (items.filter (fun x => x.key != k)).find?
        (fun x => x.key == k) = none := by
      rw [List.find?_eq_none]
      intro x hx
      have := List.of_mem_filter hx
      simp at this ⊢
      exact this
    simp [applyMutation, toMap, specApply, hfind]
  · have hfind : (items.filter (fun x => x.key != k0)).find?
        (fun x => x.key == k) = items.find? (fun x => x.key == k) := by
      induction items with
      | nil => rfl
      | cons x xs ih =>
          simp only [List.filter_cons]
          by_cases hx : (x.key == k) = true
          · have hxk : x.key = k := by simpa using hx
            have hq : (x.key != k0) = true := by
              simp [hxk]
              exact hkk
            rw [if_pos hq]
            simp only [List.find?_cons]
            rw [hx]
          · by_cases hq : (x.key != k0) = true
            · rw [if_pos hq]
              simp only [List.find?_cons]
              rw [Bool.of_not_eq_true hx]
              exact ih
            · rw [if_neg hq]
              simp only [List.find?_cons]
              rw [Bool.of_not_eq_true hx]
              exact ih
    simp [applyMutation, toMap, specApply, hfind, hkk]

lemma toMap_applyMutation (items : List Item) (m : Mutation) :
    toMap (applyMutation items m) = specApply (toMap items) m := by
  cases m with
  | add i => exact toMap_applyMutation_add items i
  | update i => exact toMap_applyMutation_update items i
  | del k0 => exact toMap_applyMutation_del items k0

lemma nodup_applyBatch (b : List Mutation) :
    ∀ items : List Item, (items.map Item.key).Nodup →
      ((applyBatch items b).map Item.key).Nodup := by
  induction b with
  | nil => intro items h; exact h
  | cons m ms ih =>
      intro items h
      exact ih (applyMutation items m) (nodup_applyMutation items m h)

lemma toMap_applyBatch (b : List Mutation) :
    ∀ items : List Item,
      toMap (applyBatch items b) = b.foldl specApply (toMap items) := by
  induction b with
  | nil => intro items; rfl
  | cons m ms ih =>
      intro items
      show toMap (applyBatch (applyMutation items m) ms) = _
      rw [ih (applyMutation items m), toMap_applyMutation]
      rfl

lemma nodup_foldl_applyBatch (bs : List (List Mutation)) :
    ∀ items : List Item, (items.map Item.key).Nodup →
      ((bs.foldl applyBatch items).map Item.key).Nodup := by
  induction bs with
  | nil => intro items h; exact h
  | cons b bs ih =>
      intro items h
      exact ih (applyBatch items b) (nodup_applyBatch b items h)

lemma toMap_foldl_applyBatch (bs : List (List Mutation)) :
    ∀ items : List Item,
      toMap (bs.foldl applyBatch items)
        = bs.foldl (fun f b => b.foldl specApply f) (toMap items) := by
  induction bs with
  | nil => intro items; rfl
  | cons b bs ih =>
      intro items
      show toMap (bs.foldl applyBatch (applyBatch items b)) = _
      rw [ih (applyBatch items b), toMap_applyBatch]
      rfl

/-- Claim C1: for every sequence of add/update/delete mutation batches applied
to a Collection starting from the empty set, the resulting local Item set
contains no two entries with the same key, and its key-indexed contents equal
the net effect of applying each mutation in order to an initially empty keyed
set (an add inserts if the key is absent, an update replaces the existing
entry in place, a delete removes the entry regardless of position). -/
theorem collection_reconcile_nodup_and_net_effect (bs : List (List Mutation)) :
    ((applyBatches bs).map Item.key).Nodup ∧
      toMap (applyBatches bs) = specNet bs := by
  constructor
  · exact nodup_foldl_applyBatch bs [] (by simp)
  · have h := toMap_foldl_applyBatch bs []
    have hempty : toMap ([] : List Item) = fun _ => none := by
      funext k
      rfl
    rw [hempty] at h
    exact h

/-- Embedded from GroupChannelScreen's FlatList data prop:
`[...failedMessages.reverse(), ...pendingMessages.reverse(),
...succeededMessages.reverse()]`. -/
def messageListData (failed pending succeeded : List α) : List α :=
  failed.reverse ++ pending.reverse ++ succeeded.reverse

/-- Claim C2: the message screen renders the three status buckets in the fixed
priority order failed, then pending, then succeeded, each reversed; the
rendered list is exactly reverse(failed) ++ reverse(pending) ++
reverse(succeeded), i.e. the most-recent-first reversal of the chronological
succeeded-then-pending-then-failed sequence. -/
theorem message_render_order (failed pending succeeded : List α) :
    messageListData failed pending succeeded
      = (succeeded ++ pending ++ failed).reverse := by
  simp [messageListData, List.reverse_append, List.append_assoc]

/-- The source classifications a message-collection event can carry
(CollectionEventSource in the chat SDK). -/
inductive CollectionEventSource where
  | syncMessageFill
  | eventMessageReceived
  | eventMessageSent
  | eventMessageUpdated
  | eventMessageDeleted
  | syncMessageChangelogs
  | localMessagePendingCreated
  | localMessageFailed
  | eventChannelChanged
deriving DecidableEq, Repr

/-- Embedded from GroupChannelScreen's onMessagesAdded handler:
`[CollectionEventSource.SYNC_MESSAGE_FILL,
CollectionEventSource.EVENT_MESSAGE_RECEIVED].includes(context.source)`
decides whether `channel.markAsRead()` is called. -/
def marksAsReadOnMessagesAdded (src : CollectionEventSource) : Bool :=
  [CollectionEventSource.syncMessageFill,
    CollectionEventSource.eventMessageReceived].contains src

/-- Claim C7: the mark-as-read side effect is decided exactly by the source
classification of an added-messages notification: the channel is marked as
read on a messages-added event if and only if the event's source is the
initial-sync-fill or the live-message-received classification. -/
theorem mark_as_read_iff_source (src : CollectionEventSource) :
    marksAsReadOnMessagesAdded src = true
      ↔ (src = CollectionEventSource.syncMessageFill
          ∨ src = CollectionEventSource.eventMessageReceived) := by
  cases src <;> simp [marksAsReadOnMessagesAdded]

/-- The ConnectScreen's input state: a user id field and an access-token
field (embedded from the useState initial value). -/
structure ConnectState where
  id : String
  accessToken : String
deriving DecidableEq, Repr

/-- The connection request issued to the SDK. -/
structure ConnectCall where
  userId : String
deriving DecidableEq, Repr

/-- Embedded from ConnectScreen's signIn handler: `sdk.connect(state.id)` —
only the id field is passed to the SDK. -/
def signInCall (st : ConnectState) : ConnectCall :=
  { userId := st.id }

/-- Claim C10: on the connect screen, two runs differing only in the
access-token text entered perform the identical connection call: signIn
invokes the SDK connect with only the user id, so the access-token input
never influences the connection (noninterference of the accessToken field). -/
theorem signIn_accessToken_noninterference (s1 s2 : ConnectState)
    (h : s1.id = s2.id) : signInCall s1 = signInCall s2 := by
  simp [signInCall, h]

/-- Witness for claim C10 at two concrete states differing only in the
access token. -/
theorem signIn_accessToken_noninterference_witness :
    signInCall { id := "alice", accessToken := "" }
      = signInCall { id := "alice", accessToken := "secret" } :=
  signIn_accessToken_noninterference
    { id := "alice", accessToken := "" }
    { id := "alice", accessToken := "secret" }
    rfl

/-- Pagination direction (forward/backward, i.e. loadNext/loadPrevious). -/
inductive Direction where
  | next
  | prev
deriving DecidableEq, Repr

/-- Pagination error taxonomy from the spec (section 7). -/
inductive LoadError where
  | noMoreData
  | inProgress
deriving DecidableEq, Repr

/-- Modelled from the spec: the Collection object itself lives in the external
chat SDK; spec section 3 describes it as an ordered set of loaded Items with a
cursor/boundary marker per direction and a subscription that can be released.
Remaining unfetched pages stand in for the cursors; `disposed` records a
released subscription. -/
structure PagedCollection where
  items : List Item
  nextPages : List (List Item)
  prevPages : List (List Item)
  disposed : Bool
deriving DecidableEq, Repr

/-- The unfetched pages in a given direction. -/
def pagesOf (c : PagedCollection) : Direction → List (List Item)
  | .next => c.nextPages
  | .prev => c.prevPages

/-- Modelled from the spec: the per-direction "has more" flag
(hasMore/hasNext/hasPrevious in the source's collections). -/
def hasMore (c : PagedCollection) (d : Direction) : Bool :=
  !(pagesOf c d).isEmpty

/-- Merge a fetched page into the loaded items, inserting by key
(an add inserts only if the key is absent, keeping the set deduplicated). -/
def mergePage (items : List Item) (page : List Item) : List Item :=
  page.foldl (fun acc i => applyMutation acc (.add i)) items

/-- Modelled from the spec: `loadMore(direction)` requests the next page; it
fails with NoMoreData when the corresponding "has more" flag is false, and in
that case the Collection is left unchanged. -/
def loadMore (c : PagedCollection) (d : Direction) :
    Except LoadError (List Item) × PagedCollection :=
  match d with
  | .next =>
      match c.nextPages with
      | [] => (.error .noMoreData, c)
      | page :: rest =>
          (.ok page,
            { c with items := mergePage c.items page, nextPages := rest })
  | .prev =>
      match c.prevPages with
      | [] => (.error .noMoreData, c)
      | page :: rest =>
          (.ok page,
            { c with items := mergePage c.items page, prevPages := rest })

/-- Modelled from the spec/source: `collection.dispose()` releases the
subscription (`detach`); the source then stops delivering events to it. -/
def dispose (c : PagedCollection) : PagedCollection :=
  { c with disposed := true }

/-- A delivery reaching the consumer after its subscription was created:
either a push mutation batch or a resolving loadMore result. -/
inductive Delivery where
  | mutation (b : List Mutation)
  | loadResult (page : List Item)
deriving DecidableEq, Repr

/-- Modelled from the spec: delivery of an event or late callback result to
the consumer. A detached (disposed) collection discards deliveries: "results
arriving after detach are discarded, not applied". -/
def deliver (c : PagedCollection) (e : Delivery) : PagedCollection :=
  if c.disposed then c
  else
    match e with
    | .mutation b => { c with items := applyBatch c.items b }
    | .loadResult page => { c with items := mergePage c.items page }

/-- Claim C3: whenever the "has more" flag for a direction is false, calling
loadMore in that direction fails with NoMoreData and leaves the local Item
set unchanged (the Collection is returned exactly as it was). -/
theorem loadMore_noMoreData (c : PagedCollection) (d : Direction)
    (h : hasMore c d = false) :
    loadMore c d = (Except.error LoadError.noMoreData, c) := by
  cases d with
  | next =>
      cases hn : c.nextPages with
      | nil => simp [loadMore, hn]
      | cons p rest => simp [hasMore, pagesOf, hn] at h
  | prev =>
      cases hp : c.prevPages with
      | nil => simp [loadMore, hp]
      | cons p rest => simp [hasMore, pagesOf, hp] at h

/-- A concrete collection whose forward direction is exhausted. -/
def exhaustedForward : PagedCollection :=
  { items := [{ key := "m1", val := 1 }]
    nextPages := []
    prevPages := [[{ key := "m2", val := 2 }]]
    disposed := false }

/-- Witness for claim C3 at a concrete exhausted collection. -/
theorem loadMore_noMoreData_witness :
    hasMore exhaustedForward Direction.next = false ∧
    loadMore exhaustedForward Direction.next
      = (Except.error LoadError.noMoreData, exhaustedForward) :=
  ⟨rfl, loadMore_noMoreData exhaustedForward Direction.next rfl⟩

/-- Modelled from the spec/source: the onHugeGapDetected handler performs a
full re-subscription — it re-runs initialization for the channel, producing a
fresh collection initialized from the fresh fetch, and the screen's dispose
effect releases the previous collection when the state changes. Returns the
fresh collection and the old, now released, one. -/
def handleGapDetected (old : PagedCollection) (fresh : List Item)
    (np pp : List (List Item)) : PagedCollection × PagedCollection :=
  ({ items := fresh, nextPages := np, prevPages := pp, disposed := false },
    dispose old)

/-- Claim C4: a gapDetected event on an active subscription triggers a full
re-subscription: the current subscription is released and a fresh one is
attached, so any previously loaded item whose key is absent from the fresh
fetch is gone, and the loaded items follow the fresh fetch exactly. -/
theorem gap_detected_full_resubscription (old : PagedCollection)
    (fresh : List Item) (np pp : List (List Item)) (x : Item)
    (_hx : x ∈ old.items) (habs : x.key ∉ fresh.map Item.key) :
    (handleGapDetected old fresh np pp).2.disposed = true ∧
    (handleGapDetected old fresh np pp).1.items = fresh ∧
    x ∉ (handleGapDetected old fresh np pp).1.items := by
  refine ⟨rfl, rfl, ?_⟩
  intro hmem
  exact habs (List.mem_map.mpr ⟨x, hmem, rfl⟩)

/-- A concrete item that is loaded before a gap is detected but missing from
the fresh fetch. -/
def staleItem : Item :=
  { key := "stale", val := 0 }

/-- A concrete collection holding only the stale item. -/
def staleCollection : PagedCollection :=
  { items := [staleItem]
    nextPages := []
    prevPages := []
    disposed := false }

/-- The fresh fetch obtained by the gap-triggered re-subscription. -/
def freshFetch : List Item :=
  [{ key := "fresh", val := 1 }]

/-- Witness for claim C4: a stale succeeded item is removed by the resync. -/
theorem gap_detected_full_resubscription_witness :
    staleItem ∈ staleCollection.items ∧
    staleItem.key ∉ freshFetch.map Item.key ∧
    (handleGapDetected staleCollection freshFetch [] []).2.disposed = true ∧
    (handleGapDetected staleCollection freshFetch [] []).1.items
      = freshFetch ∧
    staleItem ∉ (handleGapDetected staleCollection freshFetch [] []).1.items := by
  refine ⟨by decide, by decide, ?_⟩
  exact gap_detected_full_resubscription staleCollection freshFetch [] []
    staleItem (by decide) (by decide)

/-- Claim C5: for every detached consumer, any number of subsequent mutation
deliveries and any loadMore result resolving after detach leave the consumer's
last-observed snapshot unchanged: deliveries after detach are discarded,
never applied to local state. -/
theorem detached_consumer_discards_deliveries (c : PagedCollection)
    (h : c.disposed = true) (es : List Delivery) :
    es.foldl deliver c = c := by
  induction es with
  | nil => rfl
  | cons e es ih =>
      show es.foldl deliver (deliver c e) = c
      rw [show deliver c e = c by simp [deliver, h]]
      exact ih

/-- A concrete collection already detached from its source. -/
def detachedCollection : PagedCollection :=
  dispose { items := [{ key := "a", val := 0 }]
            nextPages := []
            prevPages := []
            disposed := false }

/-- Concrete deliveries arriving after detach: a mutation batch and a late
loadMore result. -/
def lateDeliveries : List Delivery :=
  [Delivery.mutation [Mutation.del "a", Mutation.add { key := "b", val := 1 }],
    Delivery.loadResult [{ key := "c", val := 2 }]]

/-- Witness for claim C5: a disposed collection survives a mutation batch and
a late loadMore result untouched. -/
theorem detached_consumer_discards_deliveries_witness :
    detachedCollection.disposed = true ∧
    lateDeliveries.foldl deliver detachedCollection = detachedCollection :=
  ⟨rfl, detached_consumer_discards_deliveries detachedCollection rfl
    lateDeliveries⟩

/-- The message screen's consumer state: the channel it is bound to, the
current user, its message collection, and whether it has navigated away
(after which the screen is unmounted, its group-channel handler removed and
its collection disposed). -/
structure Screen where
  channelUrl : String
  currentUserId : String
  collection : PagedCollection
  navigatedAway : Bool
deriving DecidableEq, Repr

/-- Events reaching the message screen while its subscription is active. -/
inductive ChannelEvent where
  | channelDeleted
  | userBanned (channelUrl userId : String)
  | userLeft (channelUrl userId : String)
  | messagesChanged (b : List Mutation)
deriving DecidableEq, Repr

/-- Modelled from the spec: `navigation.goBack()` unmounts the screen; on
unmount the handler is removed and the dispose effect releases the
collection, so the source stops delivering to it. -/
def navigateAway (s : Screen) : Screen :=
  { s with navigatedAway := true, collection := dispose s.collection }

/-- Embedded from GroupChannelScreen's handlers: onChannelDeleted navigates
back; onUserBanned / onUserLeft navigate back exactly when the event channel
is this screen's channel and the affected user is the current user; message
events re-render from the collection's reconciled items.  A screen that has
navigated away is unmounted and no longer reacts to events. -/
def screenStep (s : Screen) (e : ChannelEvent) : Screen :=
  if s.navigatedAway then s
  else
    match e with
    | .channelDeleted => navigateAway s
    | .userBanned url uid =>
        if url == s.channelUrl && uid == s.currentUserId then navigateAway s
        else s
    | .userLeft url uid =>
        if url == s.channelUrl && uid == s.currentUserId then navigateAway s
        else s
    | .messagesChanged b =>
        { s with collection :=
            { s.collection with items := applyBatch s.collection.items b } }

lemma screenStep_navigated (s : Screen) (h : s.navigatedAway = true)
    (e : ChannelEvent) : screenStep s e = s := by
  simp [screenStep, h]

lemma foldl_screenStep_navigated (s : Screen) (h : s.navigatedAway = true)
    (es : List ChannelEvent) : es.foldl screenStep s = s := by
  induction es with
  | nil => rfl
  | cons e es ih =>
      show es.foldl screenStep (screenStep s e) = s
      rw [screenStep_navigated s h e]
      exact ih

/-- Claim C6: if, while the subscription is active, the parent channel is
deleted or the current user is banned from it or leaves it from another
device, the screen navigates away, and afterwards no further event sequence
changes the screen's state: it never continues emitting stale data. -/
theorem access_lost_navigates_away_and_freezes (s : Screen) (e : ChannelEvent)
    (es : List ChannelEvent) (hm : s.navigatedAway = false)
    (he : e = ChannelEvent.channelDeleted
        ∨ e = ChannelEvent.userBanned s.channelUrl s.currentUserId
        ∨ e = ChannelEvent.userLeft s.channelUrl s.currentUserId) :
    (screenStep s e).navigatedAway = true ∧
    es.foldl screenStep (screenStep s e) = screenStep s e := by
  have hstep : screenStep s e = navigateAway s := by
    rcases he with he | he | he <;> subst he <;> simp [screenStep, hm]
  have hnav : (screenStep s e).navigatedAway = true := by
    rw [hstep]
    rfl
  exact ⟨hnav, foldl_screenStep_navigated _ hnav es⟩

/-- A concrete mounted message screen. -/
def mountedScreen : Screen :=
  { channelUrl := "channel-1"
    currentUserId := "alice"
    collection := { items := [{ key := "m1", val := 1 }]
                    nextPages := []
                    prevPages := []
                    disposed := false }
    navigatedAway := false }

/-- Witness for claim C6: the current user is banned from the screen's
channel; the screen navigates away and later events leave it unchanged. -/
theorem access_lost_navigates_away_and_freezes_witness :
    (screenStep mountedScreen
        (ChannelEvent.userBanned "channel-1" "alice")).navigatedAway = true ∧
    ([ChannelEvent.messagesChanged [Mutation.add { key := "m2", val := 2 }],
      ChannelEvent.channelDeleted].foldl screenStep
        (screenStep mountedScreen
          (ChannelEvent.userBanned "channel-1" "alice")))
      = screenStep mountedScreen
          (ChannelEvent.userBanned "channel-1" "alice") :=
  access_lost_navigates_away_and_freezes mountedScreen
    (ChannelEvent.userBanned "channel-1" "alice")
    [ChannelEvent.messagesChanged [Mutation.add { key := "m2", val := 2 }],
      ChannelEvent.channelDeleted]
    rfl (Or.inr (Or.inl rfl))

/-- A mount of the message screen: the collection created inside
initializeCollection, and whether initialization completed (the setState in
onCacheResult/onApiResult ran) before the screen unmounted. -/
structure MessageScreenMount where
  created : PagedCollection
  completed : Bool
deriving DecidableEq, Repr

/-- Embedded from GroupChannelScreen's dispose effect:
`return () => { state?.collection.dispose(); }` with dependency
`[state?.collection]`.  When the screen unmounts before initialization
completes, `state` is still undefined, the optional chaining skips the call,
and the collection created by initializeCollection is left untouched. -/
def unmountCleanup (m : MessageScreenMount) : PagedCollection :=
  if m.completed then dispose m.created else m.created

/-- The collection created by initializeCollection during a mount that is
unmounted before onCacheResult/onApiResult ever set the screen state. -/
def earlyUnmount : MessageScreenMount :=
  { created := { items := []
                 nextPages := [[{ key := "m1", val := 1 }]]
                 prevPages := []
                 disposed := false }
    completed := false }

/-- Claim C8 fails on the code: on the message screen, unmounting before
initialization completes runs the cleanup while `state` is undefined, so the
collection created by initializeCollection is never disposed — disposal on
unmount is not unconditional. -/
theorem unmount_before_setState_skips_dispose :
    (unmountCleanup earlyUnmount).disposed = false := rfl

end LiveCollection
